import Mathlib

set_option linter.unusedVariables false

/-!
Shallow embedding of src/src/broker/manager.c (the dbus-broker Manager:
dispatch loop, hangup policy, signal handling, construction and teardown),
together with theorems checking the natural-language specification against it.

External collaborators (Connection, DispatchContext/DispatchFile, UserRegistry,
c-list, util/error.h, main.h) are not part of the given source tree; where one
of their behaviours decides a property, the corresponding definition carries a
doc comment starting with `Modelled from the spec:` and follows the
specification's words for that boundary.
-/

namespace Broker

/-- Modelled from the spec: `main.h` is not under `src/`.  The loop control
vocabulary (spec sections 4.6 and 6): `MAIN_EXIT` is the clean-shutdown control
code, `MAIN_FAILED` the fatal-failure control code; distinguished nonzero
values. -/
def MAIN_EXIT : Int := 1

/-- Modelled from the spec: the fatal-failure control code from `main.h`. -/
def MAIN_FAILED : Int := 2

/-- Modelled from the spec: `util/dispatch.h` is not under `src/`.  The
distinguished callback return code meaning clean loop exit (spec section 4.6). -/
def DISPATCH_E_EXIT : Int := 1

/-- Modelled from the spec: the distinguished callback return code meaning
fatal failure, distinct from the exit code (spec section 4.6). -/
def DISPATCH_E_FAILURE : Int := 2

/-- Modelled from the spec: `util/error.h` is not under `src/`.  Spec section
7: origin errors are captured with the originating negative error code, not
swallowed; the value itself is returned unchanged (annotation only). -/
def error_origin (r : Int) : Int := r

/-- Modelled from the spec: spec section 7, folded errors are propagated
upward unchanged in meaning, optionally annotated with trace context, never
reinterpreted; spec section 4.6: anything else propagates as-is. -/
def error_fold (r : Int) : Int := r

/-- Modelled from the spec: trace annotation only, value unchanged
(spec section 7). -/
def error_trace (r : Int) : Int := r

/-- The epoll read-ready event bit used by the Manager (EPOLLIN). -/
def EPOLLIN : Nat := 1

/-- Size in bytes of one `struct signalfd_siginfo` record. -/
def SIZEOF_SIGNALFD_SIGINFO : Int := 128

/-- SIGTERM signal number. -/
def SIGTERM : Nat := 15

/-- SIGINT signal number. -/
def SIGINT : Nat := 2

/-- ENOMEM errno value, returned negated by `manager_new` on allocation
failure. -/
def ENOMEM : Int := 12

/-- Connection identifier.  The one controller connection embedded in the
Manager is the distinguished identifier `controllerId`; the C pointer test
`connection == &manager->controller` becomes the identity test against it. -/
abbrev Conn := Nat

/-- The identifier of `manager->controller`. -/
def controllerId : Conn := 0

/-- Shallow embedding of `manager_hangup` (manager.c lines 142-152).
`running c` models `connection_is_running(connection)`, the external
Connection predicate for having unflushed outbound work. -/
def manager_hangup (running : Conn → Bool) (c : Conn) : Int :=
  if c = controllerId then
    if running c then 0 else MAIN_EXIT
  else
    0

/-- Observable events of one execution of the dispatch loop: a connection
passed to the hangup policy, or a ready entry dispatched (recording the
hangup-list content at the moment of the call). -/
inductive Ev where
  | hang (c : Conn)
  | disp (f : Nat) (hupAtCall : List Conn)
  deriving DecidableEq, Repr

/-- The list state of the dispatch loop: `hup` is `manager->dispatcher_hup`,
`ready` is `manager->dispatcher_list`, `processed` the loop-local temporary
list of manager.c line 155. -/
structure LoopSt where
  hup : List Conn
  ready : List Nat
  processed : List Nat
  deriving DecidableEq, Repr

/-- Modelled from the spec: the effect of one `dispatch_file_call` (the
dispatcher bodies live in external components).  A callback returns an
integer code and may enqueue connections on the hangup list and entries on
the ready list (spec sections 4.6 and P6). -/
structure CallbackEffect where
  ret : Int
  newHup : List Conn
  newReady : List Nat

/-- The environment of callbacks: what `dispatch_file_call` does for each
ready entry. -/
structure DispatchEnv where
  call : Nat → CallbackEffect

/-- The hangup-drain inner loop (manager.c lines 165-168): while no control
code has been produced and the hangup list is non-empty, unlink the first
entry and apply `manager_hangup` to it.  Returns the resulting code, the
remaining hangup list, and the events. -/
def drainHupList (running : Conn → Bool) : List Conn → Int × List Conn × List Ev
  | [] => (0, [], [])
  | c :: rest =>
      let r := error_trace (manager_hangup running c)
      if r = 0 then
        let res := drainHupList running rest
        (res.1, res.2.1, Ev.hang c :: res.2.2)
      else
        (r, rest, [Ev.hang c])

/-- The return-code mapping applied to each `dispatch_file_call` result
(manager.c lines 200-206). -/
def map_dispatch_result (r : Int) : Int :=
  if r = DISPATCH_E_EXIT then MAIN_EXIT
  else if r = DISPATCH_E_FAILURE then MAIN_FAILED
  else error_fold r

/-- The ready-list inner loop (manager.c lines 170-207): while no control code
has been produced, the hangup list is empty and the ready list is non-empty,
unlink the first ready entry, append it to the `processed` list, call its
dispatcher and map the result.  The fuel bounds the number of callback
invocations; `none` in the first component means the fuel ran out. -/
def readyLoop (env : DispatchEnv) : Nat → LoopSt → Option Int × LoopSt × List Ev
  | 0, st => (none, st, [])
  | fuel + 1, st =>
      if st.hup = [] then
        match st.ready with
        | [] => (some 0, st, [])
        | f :: rest =>
            let eff := env.call f
            let st1 : LoopSt := ⟨st.hup ++ eff.newHup, rest ++ eff.newReady,
                                 st.processed ++ [f]⟩
            let r := map_dispatch_result eff.ret
            if r = 0 then
              let res := readyLoop env fuel st1
              (res.1, res.2.1, Ev.disp f st.hup :: res.2.2)
            else
              (some r, st1, [Ev.disp f st.hup])
      else
        (some 0, st, [])

/-- The outer do/while of `manager_dispatch` (manager.c lines 164-208): run
the hangup drain, then the ready loop, and repeat while `r` is still zero.
The source loop's only exit condition is a nonzero `r`; fuel exhaustion
(`none`) models divergence. -/
def dispatchLoop (env : DispatchEnv) (running : Conn → Bool) :
    Nat → LoopSt → Option Int × LoopSt × List Ev
  | 0, st => (none, st, [])
  | fuel + 1, st =>
      let dh := drainHupList running st.hup
      let st1 : LoopSt := ⟨dh.2.1, st.ready, st.processed⟩
      if dh.1 = 0 then
        let rl := readyLoop env fuel st1
        match rl.1 with
        | none => (none, rl.2.1, dh.2.2 ++ rl.2.2)
        | some r2 =>
            if r2 = 0 then
              let res := dispatchLoop env running fuel rl.2.1
              (res.1, res.2.1, dh.2.2 ++ rl.2.2 ++ res.2.2)
            else
              (some r2, rl.2.1, dh.2.2 ++ rl.2.2)
      else
        (some dh.1, st1, dh.2.2)

/-- Modelled from the spec: `c-list.h` is not under `src/`.  Spec section 4.6
step 3: splice the temporary processed list back onto the ready list's head so
order is preserved — the processed entries end up in front of the remaining
ready entries and the source list is left empty. -/
def c_list_splice (target source : List Nat) : List Nat := source ++ target

/-- Shallow embedding of `manager_dispatch` (manager.c lines 154-212).
`pollR` is the return of `dispatch_context_poll` (external); the post-poll
list state is the input `st`.  On loop exit the processed list is spliced
back onto the ready list (manager.c line 210). -/
def manager_dispatch (env : DispatchEnv) (running : Conn → Bool) (pollR : Int)
    (fuel : Nat) (st : LoopSt) : Option Int × LoopSt × List Ev :=
  if pollR ≠ 0 then
    (some (error_fold pollR), st, [])
  else
    let res := dispatchLoop env running fuel st
    match res.1 with
    | none => (none, res.2.1, res.2.2)
    | some r =>
        (some r, ⟨res.2.1.hup, c_list_splice res.2.1.ready res.2.1.processed, []⟩,
         res.2.2)

/-- Result of the signal dispatch callback: either a hard assertion fired or
an integer code was returned. -/
inductive SigResult where
  | asserted
  | code (r : Int)
  deriving DecidableEq, Repr

/-- Shallow embedding of `manager_dispatch_signals` (manager.c lines 32-53).
`events` is the event mask; `l` the return value of `read` (bytes read, or
negative on failure, in which case `errno` holds the error); `signo` the
signal number found in the record, which is only logged and never influences
the result. -/
def manager_dispatch_signals (events : Nat) (l : Int) (errno : Nat)
    (signo : Nat) : SigResult :=
  if events ≠ EPOLLIN then
    SigResult.asserted
  else if l < 0 then
    SigResult.code (error_origin (-(errno : Int)))
  else if l ≠ SIZEOF_SIGNALFD_SIGINFO then
    SigResult.asserted
  else
    SigResult.code DISPATCH_E_EXIT

/-- Resources acquired while constructing a Manager.  `managerMem` is the
calloc storage together with the by-value user registry initialized right
after it; `userRef` is the local `UserEntry` reference taken at manager.c
line 104. -/
inductive Resource where
  | managerMem
  | dispatcher
  | signalsFd
  | signalsFile
  | userRef
  | connection
  deriving BEq, DecidableEq, Repr

/-- The resources released by `manager_free` (manager.c lines 130-137):
connection deinit, signal-file deinit, descriptor close, dispatcher deinit,
registry deinit together with the storage release. -/
def manager_free_releases : List Resource :=
  [Resource.connection, Resource.signalsFile, Resource.signalsFd,
   Resource.dispatcher, Resource.managerMem]

/-- The cleanup run at every early return of `manager_new` once the Manager
storage exists: the `_c_cleanup_(manager_freep)` handler releases every
resource the partially built Manager holds, and `_c_cleanup_(user_entry_unrefp)`
drops the local user reference when it is held. -/
def manager_new_unwind (live : List Resource) : List Resource :=
  (live.removeAll manager_free_releases).removeAll [Resource.userRef]

/-- Abstract representation of a fully built Manager: the two worklists (the
other members are external objects).  `manager_new` initializes both lists
empty (manager.c lines 77-78). -/
structure ManagerRepr where
  dispatcherHup : List Conn
  dispatcherList : List Nat
  deriving DecidableEq, Repr

/-- The list state of a freshly constructed Manager.  Modelled from the spec
for the external registrations: a Watched File is present in the ready list
only while it has undelivered ready events (spec section 3), so registering
the signal file and constructing the controller Connection leave both
worklists empty. -/
def manager_new_manager : ManagerRepr := ⟨[], []⟩

/-- Outcomes of the external callees of `manager_new`: each fallible step
either succeeds or fails with the indicated code (syscalls fail with an errno,
sub-components with a nonzero return). -/
structure NewEnv where
  getsockopt_ok : Bool
  getsockopt_errno : Nat
  calloc_ok : Bool
  dispatch_context_init_r : Int
  signalfd_ok : Bool
  signalfd_errno : Nat
  dispatch_file_init_r : Int
  user_registry_ref_entry_r : Int
  connection_init_server_r : Int

/-- All construction steps succeed. -/
def NewEnv.allOk (env : NewEnv) : Prop :=
  env.getsockopt_ok = true ∧ env.calloc_ok = true ∧
  env.dispatch_context_init_r = 0 ∧ env.signalfd_ok = true ∧
  env.dispatch_file_init_r = 0 ∧ env.user_registry_ref_entry_r = 0 ∧
  env.connection_init_server_r = 0

instance (env : NewEnv) : Decidable env.allOk := by
  unfold NewEnv.allOk
  infer_instance

/-- Result of `manager_new`: the return code, the value stored through
`managerp` (written only on success), and the resources still live after the
cleanup handlers ran. -/
structure NewResult where
  ret : Int
  managerOut : Option ManagerRepr
  live : List Resource
  deriving DecidableEq, Repr

/-- Shallow embedding of `manager_new` (manager.c lines 59-124).  The step
order and every early return mirror the source; at each return the cleanup
handlers of the scope are applied to the resources acquired so far. -/
def manager_new (env : NewEnv) : NewResult :=
  if !env.getsockopt_ok then
    ⟨error_origin (-(env.getsockopt_errno : Int)), none, []⟩
  else if !env.calloc_ok then
    ⟨error_origin (-ENOMEM), none, []⟩
  else
    let live0 := [Resource.managerMem]
    if env.dispatch_context_init_r ≠ 0 then
      ⟨error_fold env.dispatch_context_init_r, none, manager_new_unwind live0⟩
    else
      let live1 := live0 ++ [Resource.dispatcher]
      if !env.signalfd_ok then
        ⟨error_origin (-(env.signalfd_errno : Int)), none, manager_new_unwind live1⟩
      else
        let live2 := live1 ++ [Resource.signalsFd]
        if env.dispatch_file_init_r ≠ 0 then
          ⟨error_fold env.dispatch_file_init_r, none, manager_new_unwind live2⟩
        else
          let live3 := live2 ++ [Resource.signalsFile]
          if env.user_registry_ref_entry_r ≠ 0 then
            ⟨error_fold env.user_registry_ref_entry_r, none, manager_new_unwind live3⟩
          else
            let live4 := live3 ++ [Resource.userRef]
            if env.connection_init_server_r ≠ 0 then
              ⟨error_fold env.connection_init_server_r, none, manager_new_unwind live4⟩
            else
              let live5 := live4 ++ [Resource.connection]
              ⟨0, some manager_new_manager, live5.removeAll [Resource.userRef]⟩

/-- The teardown actions of `manager_free` in source order (manager.c lines
130-137). -/
inductive TearStep where
  | deinitConnection
  | deinitSignalsFile
  | closeSignalsFd
  | assertHupEmpty
  | assertReadyEmpty
  | deinitDispatcher
  | deinitUsers
  | freeStorage
  deriving DecidableEq, Repr

/-- Shallow embedding of `manager_free` (manager.c lines 126-140): for a null
Manager nothing happens; otherwise the teardown steps run in source order and
the boolean records whether one of the two emptiness assertions fired. -/
def manager_free (m : Option ManagerRepr) : List TearStep × Bool :=
  match m with
  | none => ([], false)
  | some mgr =>
      ([TearStep.deinitConnection, TearStep.deinitSignalsFile,
        TearStep.closeSignalsFd, TearStep.assertHupEmpty,
        TearStep.assertReadyEmpty, TearStep.deinitDispatcher,
        TearStep.deinitUsers, TearStep.freeStorage],
       !(mgr.dispatcherHup.isEmpty && mgr.dispatcherList.isEmpty))

/-- The signal mask built by `manager_run` (manager.c lines 218-220):
sigemptyset, then SIGTERM and SIGINT added. -/
def manager_run_sigmask : List Nat := [SIGTERM, SIGINT]

/-- The inner loop of `manager_run` (manager.c lines 224-226) over the stream
of `manager_dispatch` results: repeat while the result is zero; `none` means
the stream was exhausted without a nonzero result. -/
def manager_run_loop : List Int → Option Int
  | [] => none
  | r :: rest => if r = 0 then manager_run_loop rest else some r

/-- Shallow embedding of `manager_run` (manager.c lines 214-231).  `results`
is the stream of `manager_dispatch` return values and `old` the prior signal
mask.  Returns the final code, the mask in effect while dispatching (SIG_BLOCK
adds the two termination signals to `old`), and the mask after return
(SIG_SETMASK restores `old` on the single exit path). -/
def manager_run (results : List Int) (old : List Nat) :
    Option Int × List Nat × List Nat :=
  let blocked := old ++ manager_run_sigmask
  match manager_run_loop results with
  | none => (none, blocked, blocked)
  | some r => (some (error_trace r), blocked, old)

/-- The ready entries dispatched during a run, in dispatch order. -/
def dispOrder (log : List Ev) : List Nat :=
  log.filterMap (fun e =>
    match e with
    | Ev.disp f _ => some f
    | Ev.hang _ => none)

/-! Helper lemmas about the loop embedding. -/

theorem dispOrder_append (a b : List Ev) :
    dispOrder (a ++ b) = dispOrder a ++ dispOrder b := by
  simp [dispOrder]

theorem drainHupList_evs_hang (running : Conn → Bool) (hup : List Conn) :
    ∀ e ∈ (drainHupList running hup).2.2, ∃ c, e = Ev.hang c := by
  induction hup with
  | nil => simp [drainHupList]
  | cons c rest ih =>
      by_cases h : error_trace (manager_hangup running c) = 0
      · simp only [drainHupList, h, if_pos]
        intro e he
        rcases List.mem_cons.1 he with he | he
        · exact ⟨c, he⟩
        · exact ih e he
      · simp only [drainHupList, h, if_neg, not_false_iff]
        intro e he
        rcases List.mem_singleton.1 he with rfl
        exact ⟨c, rfl⟩

theorem dispOrder_drainHupList (running : Conn → Bool) (hup : List Conn) :
    dispOrder (drainHupList running hup).2.2 = [] := by
  rw [List.eq_nil_iff_forall_not_mem]
  intro f hf
  rcases List.mem_filterMap.1 hf with ⟨e, he, hfe⟩
  rcases drainHupList_evs_hang running hup e he with ⟨c, rfl⟩
  simp at hfe

theorem drainHupList_complete (running : Conn → Bool) (hup : List Conn)
    (h : (drainHupList running hup).1 = 0) :
    (drainHupList running hup).2.2 = hup.map Ev.hang := by
  induction hup with
  | nil => rfl
  | cons c rest ih =>
      by_cases hc : error_trace (manager_hangup running c) = 0
      · simp only [drainHupList, hc, if_pos] at h ⊢
        simp [ih h]
      · simp only [drainHupList, hc, if_neg, not_false_iff] at h

theorem readyLoop_disp_empty (env : DispatchEnv) :
    ∀ fuel st f hs, Ev.disp f hs ∈ (readyLoop env fuel st).2.2 → hs = [] := by
  intro fuel
  induction fuel with
  | zero => intro st f hs h; simp [readyLoop] at h
  | succ n ih =>
      intro st f hs h
      by_cases hh : st.hup = []
      · rcases hr : st.ready with _ | ⟨f0, rest⟩
        · simp [readyLoop, hh, hr] at h
        · by_cases hret : map_dispatch_result (env.call f0).ret = 0
          · simp only [readyLoop, hh, hr, hret, if_pos] at h
            rcases List.mem_cons.1 h with h | h
            · cases h; rfl
            · exact ih _ f hs h
          · simp only [readyLoop, hh, hr, hret, if_neg, not_false_iff] at h
            rcases List.mem_singleton.1 h with h
            cases h; rfl
      · simp [readyLoop, hh] at h

theorem dispatchLoop_disp_empty (env : DispatchEnv) (running : Conn → Bool) :
    ∀ fuel st f hs,
      Ev.disp f hs ∈ (dispatchLoop env running fuel st).2.2 → hs = [] := by
  intro fuel
  induction fuel with
  | zero => intro st f hs h; simp [dispatchLoop] at h
  | succ n ih =>
      intro st f hs h
      by_cases hd : (drainHupList running st.hup).1 = 0
      · simp only [dispatchLoop, hd, if_pos] at h
        rcases hrl : (readyLoop env n ⟨(drainHupList running st.hup).2.1,
            st.ready, st.processed⟩).1 with _ | r2
        · rw [hrl] at h
          simp only at h
          rcases List.mem_append.1 h with h | h
          · rcases drainHupList_evs_hang running st.hup _ h with ⟨c, hc⟩
            cases hc
          · exact readyLoop_disp_empty env n _ f hs h
        · rw [hrl] at h
          by_cases hr2 : r2 = 0
          · subst hr2
            simp only [if_pos rfl] at h
            rcases List.mem_append.1 h with h | h
            · rcases List.mem_append.1 h with h | h
              · rcases drainHupList_evs_hang running st.hup _ h with ⟨c, hc⟩
                cases hc
              · exact readyLoop_disp_empty env n _ f hs h
            · exact ih _ f hs h
          · simp only [hr2, if_neg, not_false_iff] at h
            rcases List.mem_append.1 h with h | h
            · rcases drainHupList_evs_hang running st.hup _ h with ⟨c, hc⟩
              cases hc
            · exact readyLoop_disp_empty env n _ f hs h
      · simp only [dispatchLoop, hd, if_neg, not_false_iff] at h
        rcases drainHupList_evs_hang running st.hup _ h with ⟨c, hc⟩
        cases hc

theorem readyLoop_hup_nonempty (env : DispatchEnv) (fuel : Nat) (st : LoopSt)
    (h : st.hup ≠ []) : readyLoop env (fuel + 1) st = (some 0, st, []) := by
  simp [readyLoop, h]

theorem dispatchLoop_hang_first (env : DispatchEnv) (running : Conn → Bool)
    (fuel : Nat) (st : LoopSt)
    (h : ∃ f hs, Ev.disp f hs ∈ (dispatchLoop env running fuel st).2.2) :
    ∃ rest, (dispatchLoop env running fuel st).2.2 = st.hup.map Ev.hang ++ rest := by
  rcases fuel with _ | n
  · rcases h with ⟨f, hs, h⟩
    simp [dispatchLoop] at h
  · by_cases hd : (drainHupList running st.hup).1 = 0
    · have hdc := drainHupList_complete running st.hup hd
      rw [← hdc]
      simp only [dispatchLoop, hd, if_pos]
      split
      · exact ⟨_, rfl⟩
      · split
        · exact ⟨_, List.append_assoc _ _ _⟩
        · exact ⟨_, rfl⟩
    · exfalso
      rcases h with ⟨f, hs, h⟩
      simp only [dispatchLoop, hd, if_neg, not_false_iff] at h
      rcases drainHupList_evs_hang running st.hup _ h with ⟨c, hc⟩
      cases hc

theorem readyLoop_processed (env : DispatchEnv) :
    ∀ fuel st, (readyLoop env fuel st).2.1.processed
      = st.processed ++ dispOrder (readyLoop env fuel st).2.2 := by
  intro fuel
  induction fuel with
  | zero => intro st; simp [readyLoop, dispOrder]
  | succ n ih =>
      intro st
      by_cases hh : st.hup = []
      · rcases hr : st.ready with _ | ⟨f0, rest⟩
        · simp [readyLoop, hh, hr, dispOrder]
        · by_cases hret : map_dispatch_result (env.call f0).ret = 0
          · simp only [readyLoop, hh, hr, hret, if_pos]
            rw [ih]
            simp [dispOrder]
          · simp only [readyLoop, hh, hr, hret, if_neg, not_false_iff]
            simp [dispOrder]
      · simp [readyLoop, hh, dispOrder]

theorem dispatchLoop_processed (env : DispatchEnv) (running : Conn → Bool) :
    ∀ fuel st, (dispatchLoop env running fuel st).2.1.processed
      = st.processed ++ dispOrder (dispatchLoop env running fuel st).2.2 := by
  intro fuel
  induction fuel with
  | zero => intro st; simp [dispatchLoop, dispOrder]
  | succ n ih =>
      intro st
      by_cases hd : (drainHupList running st.hup).1 = 0
      · simp only [dispatchLoop, hd, if_pos]
        split
        · simp [readyLoop_processed env n, dispOrder_append,
            dispOrder_drainHupList]
        · split
          · simp [ih, readyLoop_processed env n, dispOrder_append,
              dispOrder_drainHupList]
          · simp [readyLoop_processed env n, dispOrder_append,
              dispOrder_drainHupList]
      · simp only [dispatchLoop, hd, if_neg, not_false_iff]
        simp [dispOrder_drainHupList]

theorem dispatchLoop_idle_spins (env : DispatchEnv) (running : Conn → Bool) :
    ∀ fuel p, (dispatchLoop env running fuel ⟨[], [], p⟩).1 = none := by
  intro fuel
  induction fuel with
  | zero => intro p; rfl
  | succ n ih =>
      intro p
      rcases n with _ | m
      · rfl
      · exact ih p

/-! The claims. -/

/-- C1: the hangup policy returns 0 for the controller while it is running,
the clean-exit control code for the controller once it is no longer running,
and 0 for every other connection — and consequently the hangup drain never
produces a control code from controller hangups while the controller is
still running. -/
theorem C1_hangup_policy (running : Conn → Bool) :
    (running controllerId = true → manager_hangup running controllerId = 0) ∧
    (running controllerId = false →
      manager_hangup running controllerId = MAIN_EXIT) ∧
    (∀ c, c ≠ controllerId → manager_hangup running c = 0) ∧
    (running controllerId = true →
      ∀ hup, (drainHupList running hup).1 = 0) := by
  refine ⟨?_, ?_, ?_, ?_⟩
  · intro h; simp [manager_hangup, h]
  · intro h; simp [manager_hangup, h]
  · intro c hc; simp [manager_hangup, hc]
  · intro h hup
    induction hup with
    | nil => rfl
    | cons c rest ih =>
        have hz : manager_hangup running c = 0 := by
          by_cases hc : c = controllerId
          · subst hc; simp [manager_hangup, h]
          · simp [manager_hangup, hc]
        simp [drainHupList, error_trace, hz, ih]

/-- Witness for C1 at concrete inputs. -/
theorem C1_hangup_policy_witness :
    manager_hangup (fun _ => true) controllerId = 0 ∧
    manager_hangup (fun _ => false) controllerId = MAIN_EXIT ∧
    manager_hangup (fun _ => true) 5 = 0 ∧
    (drainHupList (fun _ => true) [0, 3, 7]).1 = 0 :=
  ⟨(C1_hangup_policy (fun _ => true)).1 rfl,
   (C1_hangup_policy (fun _ => false)).2.1 rfl,
   (C1_hangup_policy (fun _ => true)).2.2.1 5 (by decide),
   (C1_hangup_policy (fun _ => true)).2.2.2 rfl [0, 3, 7]⟩

/-- C2: in every run of the dispatch loop, a dispatch callback is invoked only
at a moment when the hangup list is empty; if any ready entry is dispatched at
all, then every hangup entry present at the start of draining was first passed
to the hangup policy, in list order; and the ready-list inner loop refuses to
dispatch whenever the hangup list is non-empty. -/
theorem C2_hangup_priority (env : DispatchEnv) (running : Conn → Bool) :
    (∀ fuel st f hs,
      Ev.disp f hs ∈ (dispatchLoop env running fuel st).2.2 → hs = []) ∧
    (∀ fuel st,
      (∃ f hs, Ev.disp f hs ∈ (dispatchLoop env running fuel st).2.2) →
      ∃ rest,
        (dispatchLoop env running fuel st).2.2 = st.hup.map Ev.hang ++ rest) ∧
    (∀ fuel st, st.hup ≠ [] → readyLoop env (fuel + 1) st = (some 0, st, [])) :=
  ⟨dispatchLoop_disp_empty env running,
   fun fuel st h => dispatchLoop_hang_first env running fuel st h,
   fun fuel st h => readyLoop_hup_nonempty env fuel st h⟩

/-- Witness for C2: a run with one queued hangup and one ready entry whose
callback returns the exit code. -/
theorem C2_hangup_priority_witness :
    (([] : List Conn) = []) ∧
    (∃ rest,
      (dispatchLoop ⟨fun _ => ⟨DISPATCH_E_EXIT, [], []⟩⟩ (fun _ => true) 3
          ⟨[1], [4], []⟩).2.2 = ([1] : List Conn).map Ev.hang ++ rest) ∧
    readyLoop ⟨fun _ => ⟨DISPATCH_E_EXIT, [], []⟩⟩ 1
        ⟨[1], [], []⟩ = (some 0, ⟨[1], [], []⟩, []) :=
  ⟨(C2_hangup_priority ⟨fun _ => ⟨DISPATCH_E_EXIT, [], []⟩⟩ (fun _ => true)).1
      3 ⟨[1], [4], []⟩ 4 [] (by decide),
   (C2_hangup_priority ⟨fun _ => ⟨DISPATCH_E_EXIT, [], []⟩⟩ (fun _ => true)).2.1
      3 ⟨[1], [4], []⟩ ⟨4, [], by decide⟩,
   (C2_hangup_priority ⟨fun _ => ⟨DISPATCH_E_EXIT, [], []⟩⟩ (fun _ => true)).2.2
      0 ⟨[1], [], []⟩ (by decide)⟩

/-- C3: the claim says one dispatch-loop iteration terminates with result zero
once both worklists are drained.  The code does the opposite: the inner
`do/while (!r)` has no emptiness condition, so once both lists are drained
with `r == 0` it spins forever and `manager_dispatch` never returns.  At the
failing input (empty hangup list, one ready entry whose callback returns 0 and
enqueues nothing) the interpreter exhausts every fuel bound: the first
conjunct shows the lists are indeed drained after three rounds, the remaining
conjuncts show divergence for every fuel. -/
theorem C3_dispatch_iteration_diverges :
    (dispatchLoop ⟨fun _ => ⟨0, [], []⟩⟩ (fun _ => true) 3
        ⟨[], [4], []⟩).2.1 = ⟨[], [], [4]⟩ ∧
    ∀ fuel,
      (dispatchLoop ⟨fun _ => ⟨0, [], []⟩⟩ (fun _ => true) fuel
          ⟨[], [], []⟩).1 = none ∧
      (dispatchLoop ⟨fun _ => ⟨0, [], []⟩⟩ (fun _ => true) fuel
          ⟨[], [4], []⟩).1 = none ∧
      (manager_dispatch ⟨fun _ => ⟨0, [], []⟩⟩ (fun _ => true) 0 fuel
          ⟨[], [4], []⟩).1 = none := by
  refine ⟨by decide, ?_⟩
  have hbusy : ∀ n, (dispatchLoop ⟨fun _ => ⟨0, [], []⟩⟩ (fun _ => true) n
      ⟨[], [4], []⟩).1 = none := by
    intro n
    rcases n with _ | _ | _ | k
    · rfl
    · rfl
    · rfl
    · exact dispatchLoop_idle_spins ⟨fun _ => ⟨0, [], []⟩⟩ (fun _ => true)
        (k + 2) [4]
  intro fuel
  refine ⟨dispatchLoop_idle_spins _ _ fuel [], hbusy fuel, ?_⟩
  simp only [manager_dispatch]
  rw [if_neg (by decide)]
  have h := hbusy fuel
  rcases hres : (dispatchLoop ⟨fun _ => ⟨0, [], []⟩⟩ (fun _ => true) fuel
      ⟨[], [4], []⟩).1 with _ | r
  · rfl
  · rw [hres] at h; cases h

/-- C4: the loop maps a callback result of the distinguished exit code to the
clean-shutdown control code, the distinguished failure code to the
fatal-failure control code, and propagates every other value unchanged (zero
included). -/
theorem C4_control_code_mapping :
    map_dispatch_result DISPATCH_E_EXIT = MAIN_EXIT ∧
    map_dispatch_result DISPATCH_E_FAILURE = MAIN_FAILED ∧
    map_dispatch_result 0 = 0 ∧
    ∀ r : Int, r ≠ DISPATCH_E_EXIT → r ≠ DISPATCH_E_FAILURE →
      map_dispatch_result r = r := by
  refine ⟨by decide, by decide, by decide, ?_⟩
  intro r h1 h2
  simp [map_dispatch_result, h1, h2, error_fold]

/-- Witness for C4 at a concrete unmapped value. -/
theorem C4_control_code_mapping_witness :
    map_dispatch_result (-5) = -5 :=
  C4_control_code_mapping.2.2.2 (-5) (by decide) (by decide)

/-- C5: with a read-ready event and a full-size record read, the signal
callback returns the distinguished exit code whatever the signal number was;
the loop maps that code to the clean-exit control code in the same iteration;
a wrong event mask asserts, and a short read asserts. -/
theorem C5_signal_dispatch_exit :
    (∀ errno signo,
      manager_dispatch_signals EPOLLIN SIZEOF_SIGNALFD_SIGINFO errno signo
        = SigResult.code DISPATCH_E_EXIT) ∧
    map_dispatch_result DISPATCH_E_EXIT = MAIN_EXIT ∧
    (∀ env : DispatchEnv, ∀ f, env.call f = ⟨DISPATCH_E_EXIT, [], []⟩ →
      (readyLoop env 1 ⟨[], [f], []⟩).1 = some MAIN_EXIT) ∧
    (∀ events l errno signo, events ≠ EPOLLIN →
      manager_dispatch_signals events l errno signo = SigResult.asserted) ∧
    (∀ l errno signo, 0 ≤ l → l ≠ SIZEOF_SIGNALFD_SIGINFO →
      manager_dispatch_signals EPOLLIN l errno signo = SigResult.asserted) := by
  refine ⟨?_, by decide, ?_, ?_, ?_⟩
  · intro errno signo
    simp [manager_dispatch_signals, SIZEOF_SIGNALFD_SIGINFO]
  · intro env f h
    simp [readyLoop, h, map_dispatch_result, DISPATCH_E_EXIT, MAIN_EXIT,
      DISPATCH_E_FAILURE]
  · intro events l errno signo h
    simp [manager_dispatch_signals, h]
  · intro l errno signo h1 h2
    simp [manager_dispatch_signals, h2]
    omega

/-- Witness for C5 with both termination signals, a wrong mask and a short
read. -/
theorem C5_signal_dispatch_exit_witness :
    manager_dispatch_signals 1 128 0 SIGTERM = SigResult.code DISPATCH_E_EXIT ∧
    manager_dispatch_signals 1 128 0 SIGINT = SigResult.code DISPATCH_E_EXIT ∧
    (readyLoop ⟨fun _ => ⟨DISPATCH_E_EXIT, [], []⟩⟩ 1 ⟨[], [7], []⟩).1
      = some MAIN_EXIT ∧
    manager_dispatch_signals 4 128 0 SIGTERM = SigResult.asserted ∧
    manager_dispatch_signals 1 127 0 SIGTERM = SigResult.asserted :=
  ⟨C5_signal_dispatch_exit.1 0 SIGTERM,
   C5_signal_dispatch_exit.1 0 SIGINT,
   C5_signal_dispatch_exit.2.2.1 ⟨fun _ => ⟨DISPATCH_E_EXIT, [], []⟩⟩ 7 rfl,
   C5_signal_dispatch_exit.2.2.2.1 4 128 0 SIGTERM (by decide),
   C5_signal_dispatch_exit.2.2.2.2 127 0 SIGTERM (by decide) (by decide)⟩

/-- C6: construction is all-or-nothing: whenever any step fails, `manager_new`
returns a nonzero code, writes nothing through the output pointer, and the
cleanup handlers leave no resource live; on full success it returns zero and
hands out a fully built Manager holding exactly its five resources. -/
theorem C6_construction_all_or_nothing (env : NewEnv)
    (hg : 0 < env.getsockopt_errno) (hsf : 0 < env.signalfd_errno) :
    (¬ env.allOk →
      (manager_new env).ret ≠ 0 ∧ (manager_new env).managerOut = none ∧
      (manager_new env).live = []) ∧
    (env.allOk →
      (manager_new env).ret = 0 ∧
      (manager_new env).managerOut = some manager_new_manager ∧
      (manager_new env).live = [Resource.managerMem, Resource.dispatcher,
        Resource.signalsFd, Resource.signalsFile, Resource.connection]) := by
  constructor
  · intro hnall
    cases hb1 : env.getsockopt_ok with
    | false =>
        have hres : manager_new env
            = ⟨error_origin (-(env.getsockopt_errno : Int)), none, []⟩ := by
          simp [manager_new, hb1]
        rw [hres]
        refine ⟨?_, rfl, rfl⟩
        simp only [error_origin]
        omega
    | true =>
        cases hb2 : env.calloc_ok with
        | false =>
            have hres : manager_new env = ⟨error_origin (-ENOMEM), none, []⟩ := by
              simp [manager_new, hb1, hb2]
            rw [hres]
            exact ⟨by decide, rfl, rfl⟩
        | true =>
            by_cases hc3 : env.dispatch_context_init_r = 0
            · cases hb4 : env.signalfd_ok with
              | false =>
                  have hres : manager_new env
                      = ⟨error_origin (-(env.signalfd_errno : Int)), none,
                         manager_new_unwind [Resource.managerMem,
                           Resource.dispatcher]⟩ := by
                    simp [manager_new, hb1, hb2, hc3, hb4]
                  rw [hres]
                  refine ⟨?_, rfl, rfl⟩
                  simp only [error_origin]
                  omega
              | true =>
                  by_cases hc5 : env.dispatch_file_init_r = 0
                  · by_cases hc6 : env.user_registry_ref_entry_r = 0
                    · by_cases hc7 : env.connection_init_server_r = 0
                      · exact absurd ⟨hb1, hb2, hc3, hb4, hc5, hc6, hc7⟩ hnall
                      · have hres : manager_new env
                            = ⟨error_fold env.connection_init_server_r, none,
                               manager_new_unwind [Resource.managerMem,
                                 Resource.dispatcher, Resource.signalsFd,
                                 Resource.signalsFile, Resource.userRef]⟩ := by
                          simp [manager_new, hb1, hb2, hc3, hb4, hc5, hc6, hc7]
                        rw [hres]
                        exact ⟨hc7, rfl, rfl⟩
                    · have hres : manager_new env
                          = ⟨error_fold env.user_registry_ref_entry_r, none,
                             manager_new_unwind [Resource.managerMem,
                               Resource.dispatcher, Resource.signalsFd,
                               Resource.signalsFile]⟩ := by
                        simp [manager_new, hb1, hb2, hc3, hb4, hc5, hc6]
                      rw [hres]
                      exact ⟨hc6, rfl, rfl⟩
                  · have hres : manager_new env
                        = ⟨error_fold env.dispatch_file_init_r, none,
                           manager_new_unwind [Resource.managerMem,
                             Resource.dispatcher, Resource.signalsFd]⟩ := by
                      simp [manager_new, hb1, hb2, hc3, hb4, hc5]
                    rw [hres]
                    exact ⟨hc5, rfl, rfl⟩
            · have hres : manager_new env
                  = ⟨error_fold env.dispatch_context_init_r, none,
                     manager_new_unwind [Resource.managerMem]⟩ := by
                simp [manager_new, hb1, hb2, hc3]
              rw [hres]
              exact ⟨hc3, rfl, rfl⟩
  · intro hok
    obtain ⟨h1, h2, h3, h4, h5, h6, h7⟩ := hok
    have hres : manager_new env
        = ⟨0, some manager_new_manager,
           ([Resource.managerMem, Resource.dispatcher, Resource.signalsFd,
             Resource.signalsFile, Resource.userRef] ++
            [Resource.connection]).removeAll [Resource.userRef]⟩ := by
      simp [manager_new, h1, h2, h3, h4, h5, h6, h7]
    rw [hres]
    exact ⟨rfl, rfl, by decide⟩

/-- Witness for C6: a failing construction (peer-credential retrieval fails)
and a fully successful one. -/
theorem C6_construction_all_or_nothing_witness :
    ((manager_new ⟨false, 13, true, 0, true, 22, 0, 0, 0⟩).ret ≠ 0 ∧
     (manager_new ⟨false, 13, true, 0, true, 22, 0, 0, 0⟩).managerOut = none ∧
     (manager_new ⟨false, 13, true, 0, true, 22, 0, 0, 0⟩).live = []) ∧
    ((manager_new ⟨true, 13, true, 0, true, 22, 0, 0, 0⟩).ret = 0 ∧
     (manager_new ⟨true, 13, true, 0, true, 22, 0, 0, 0⟩).managerOut
        = some manager_new_manager ∧
     (manager_new ⟨true, 13, true, 0, true, 22, 0, 0, 0⟩).live
        = [Resource.managerMem, Resource.dispatcher, Resource.signalsFd,
           Resource.signalsFile, Resource.connection]) :=
  ⟨(C6_construction_all_or_nothing ⟨false, 13, true, 0, true, 22, 0, 0, 0⟩
      (by decide) (by decide)).1 (by decide),
   (C6_construction_all_or_nothing ⟨true, 13, true, 0, true, 22, 0, 0, 0⟩
      (by decide) (by decide)).2
      ⟨rfl, rfl, rfl, rfl, rfl, rfl, rfl⟩⟩

/-- C7: teardown performs exactly the specified steps in order — controller
connection, signal file, signal descriptor close, the two worklist-emptiness
assertions, dispatch context, user registry, storage — and tearing down a
freshly constructed Manager that never ran the loop fires no assertion. -/
theorem C7_teardown_order (m : ManagerRepr) :
    (manager_free (some m)).1 =
      [TearStep.deinitConnection, TearStep.deinitSignalsFile,
       TearStep.closeSignalsFd, TearStep.assertHupEmpty,
       TearStep.assertReadyEmpty, TearStep.deinitDispatcher,
       TearStep.deinitUsers, TearStep.freeStorage] ∧
    ((manager_free (some m)).2 = false ↔
      (m.dispatcherHup = [] ∧ m.dispatcherList = [])) ∧
    (∀ env : NewEnv, env.allOk →
      (manager_new env).managerOut = some manager_new_manager ∧
      (manager_free (manager_new env).managerOut).2 = false) := by
  refine ⟨rfl, ?_, ?_⟩
  · simp [manager_free, List.isEmpty_iff]
  · intro env hok
    obtain ⟨h1, h2, h3, h4, h5, h6, h7⟩ := hok
    have hout : (manager_new env).managerOut = some manager_new_manager := by
      simp [manager_new, h1, h2, h3, h4, h5, h6, h7]
    exact ⟨hout, by rw [hout]; rfl⟩

/-- Witness for C7: a successful construction immediately torn down, with no
assertion firing. -/
theorem C7_teardown_order_witness :
    (manager_new ⟨true, 0, true, 0, true, 0, 0, 0, 0⟩).managerOut
        = some manager_new_manager ∧
    (manager_free
        (manager_new ⟨true, 0, true, 0, true, 0, 0, 0, 0⟩).managerOut).2
        = false :=
  (C7_teardown_order ⟨[], []⟩).2.2 ⟨true, 0, true, 0, true, 0, 0, 0, 0⟩
    ⟨rfl, rfl, rfl, rfl, rfl, rfl, rfl⟩

theorem manager_run_loop_first (results : List Int) (r : Int)
    (h : manager_run_loop results = some r) :
    r ≠ 0 ∧ ∃ pre post, results = pre ++ r :: post ∧ ∀ x ∈ pre, x = 0 := by
  induction results with
  | nil => simp [manager_run_loop] at h
  | cons a rest ih =>
      by_cases ha : a = 0
      · subst ha
        simp only [manager_run_loop, if_pos rfl] at h
        rcases ih h with ⟨hr, pre, post, heq, hz⟩
        refine ⟨hr, 0 :: pre, post, by rw [heq]; rfl, ?_⟩
        intro x hx
        rcases List.mem_cons.1 hx with rfl | hx
        · rfl
        · exact hz x hx
      · simp only [manager_run_loop, if_neg ha] at h
        cases h
        exact ⟨ha, [], rest, rfl, by intro x hx; cases hx⟩

/-- C8: the run loop blocks exactly SIGTERM and SIGINT on top of the saved
mask before dispatching, repeats the dispatch iteration exactly as long as it
returns zero, restores the saved mask on its exit path, and returns the first
nonzero code unchanged. -/
theorem C8_run_blocks_and_restores (results : List Int) (old : List Nat)
    (r : Int) (h : manager_run_loop results = some r) :
    manager_run results old = (some r, old ++ [SIGTERM, SIGINT], old) ∧
    (∀ s, s ∈ old ++ manager_run_sigmask ↔
      (s ∈ old ∨ s = SIGTERM ∨ s = SIGINT)) ∧
    r ≠ 0 ∧
    (∃ pre post, results = pre ++ r :: post ∧ ∀ x ∈ pre, x = 0) := by
  rcases manager_run_loop_first results r h with ⟨hr, hsplit⟩
  refine ⟨?_, ?_, hr, hsplit⟩
  · simp [manager_run, h, error_trace, manager_run_sigmask]
  · intro s
    simp [manager_run_sigmask]

/-- Witness for C8: two zero iterations, then the exit code 3. -/
theorem C8_run_blocks_and_restores_witness :
    manager_run [0, 0, 3] [10] = (some 3, [10] ++ [SIGTERM, SIGINT], [10]) ∧
    (∀ s, s ∈ [10] ++ manager_run_sigmask ↔
      (s ∈ [10] ∨ s = SIGTERM ∨ s = SIGINT)) ∧
    (3 : Int) ≠ 0 ∧
    (∃ pre post, ([0, 0, 3] : List Int) = pre ++ 3 :: post ∧ ∀ x ∈ pre, x = 0) :=
  C8_run_blocks_and_restores [0, 0, 3] [10] 3 (by decide)

/-- C9: when the dispatch loop exits with a control code, the temporary
processed list holds exactly the dispatched entries in dispatch order, and
`manager_dispatch` splices them back onto the head of the ready list, in
front of whatever entries callbacks inserted meanwhile. -/
theorem C9_processed_splice (env : DispatchEnv) (running : Conn → Bool)
    (fuel : Nat) (hup : List Conn) (ready : List Nat) (r : Int)
    (st' : LoopSt) (log : List Ev)
    (h : dispatchLoop env running fuel ⟨hup, ready, []⟩ = (some r, st', log)) :
    st'.processed = dispOrder log ∧
    manager_dispatch env running 0 fuel ⟨hup, ready, []⟩
      = (some r, ⟨st'.hup, dispOrder log ++ st'.ready, []⟩, log) := by
  have hp := dispatchLoop_processed env running fuel ⟨hup, ready, []⟩
  rw [h] at hp
  simp at hp
  refine ⟨hp, ?_⟩
  simp only [manager_dispatch]
  rw [if_neg (by decide : ¬((0 : Int) ≠ 0))]
  rw [h]
  simp [c_list_splice, hp]

/-- Witness for C9: one hangup entry, one ready entry whose callback exits. -/
theorem C9_processed_splice_witness :
    (⟨[], [], [4]⟩ : LoopSt).processed
        = dispOrder [Ev.hang 1, Ev.disp 4 []] ∧
    manager_dispatch ⟨fun _ => ⟨DISPATCH_E_EXIT, [], []⟩⟩ (fun _ => true) 0 3
        ⟨[1], [4], []⟩
      = (some MAIN_EXIT,
         ⟨(⟨[], [], [4]⟩ : LoopSt).hup,
          dispOrder [Ev.hang 1, Ev.disp 4 []] ++ (⟨[], [], [4]⟩ : LoopSt).ready,
          []⟩,
         [Ev.hang 1, Ev.disp 4 []]) :=
  C9_processed_splice ⟨fun _ => ⟨DISPATCH_E_EXIT, [], []⟩⟩ (fun _ => true) 3
    [1] [4] MAIN_EXIT ⟨[], [], [4]⟩ [Ev.hang 1, Ev.disp 4 []] rfl

/-- C10: when the signal-record read fails, the callback neither asserts nor
signals exit: it returns the negated errno, which the loop's mapping leaves
unchanged — a nonzero value distinct from both control codes, so the loop
stops with that error. -/
theorem C10_signal_read_failure (l : Int) (errno : Nat) (signo f : Nat)
    (running : Conn → Bool) (hl : l < 0) (he : 0 < errno) :
    manager_dispatch_signals EPOLLIN l errno signo
      = SigResult.code (-(errno : Int)) ∧
    map_dispatch_result (-(errno : Int)) = -(errno : Int) ∧
    (-(errno : Int)) ≠ 0 ∧
    (-(errno : Int)) ≠ MAIN_EXIT ∧
    (-(errno : Int)) ≠ MAIN_FAILED ∧
    (dispatchLoop ⟨fun _ => ⟨-(errno : Int), [], []⟩⟩ running 2
        ⟨[], [f], []⟩).1 = some (-(errno : Int)) := by
  have hne1 : ¬((-(errno : Int)) = DISPATCH_E_EXIT) := by
    simp only [DISPATCH_E_EXIT]
    omega
  have hne2 : ¬((-(errno : Int)) = DISPATCH_E_FAILURE) := by
    simp only [DISPATCH_E_FAILURE]
    omega
  have hne0 : ¬((-(errno : Int)) = 0) := by omega
  have hmap : map_dispatch_result (-(errno : Int)) = -(errno : Int) := by
    unfold map_dispatch_result
    rw [if_neg hne1, if_neg hne2]
    rfl
  have hrl : readyLoop ⟨fun _ => ⟨-(errno : Int), [], []⟩⟩ 1 ⟨[], [f], []⟩
      = (some (-(errno : Int)), ⟨[], [], [f]⟩, [Ev.disp f []]) := by
    simp only [readyLoop]
    simp [hmap, hne0]
  refine ⟨?_, hmap, hne0, ?_, ?_, ?_⟩
  · simp [manager_dispatch_signals, hl, error_origin]
  · simp only [MAIN_EXIT]
    omega
  · simp only [MAIN_FAILED]
    omega
  · simp only [dispatchLoop, drainHupList]
    rw [hrl]
    simp [hne0]

/-- Witness for C10 at a concrete failed read. -/
theorem C10_signal_read_failure_witness :
    manager_dispatch_signals EPOLLIN (-1) 5 SIGTERM
      = SigResult.code (-(5 : Nat) : Int) ∧
    map_dispatch_result (-(5 : Nat) : Int) = -(5 : Nat) ∧
    (-(5 : Nat) : Int) ≠ 0 ∧
    (-(5 : Nat) : Int) ≠ MAIN_EXIT ∧
    (-(5 : Nat) : Int) ≠ MAIN_FAILED ∧
    (dispatchLoop ⟨fun _ => ⟨(-(5 : Nat) : Int), [], []⟩⟩ (fun _ => true) 2
        ⟨[], [0], []⟩).1 = some (-(5 : Nat) : Int) :=
  C10_signal_read_failure (-1) 5 SIGTERM 0 (fun _ => true) (by decide)
    (by decide)

end Broker
